import Mathlib

/-!
Verification of the afterpkg build orchestrator (src/afterpkg.py) against its
natural-language specification.  The Python source is shallowly embedded:
pure functions become Lean functions, the mutable `resolved` list of the
recursive dependency resolver is threaded explicitly, recursion is made
total with an explicit fuel parameter (the Python program recurses without
bound on cyclic inputs; every theorem below is conditioned on the run
producing a result, so the fuel is semantically transparent), and the
process environment (file checksums, subprocess exit statuses, the network)
is passed in as explicit function arguments.
-/

namespace Afterpkg

/-- Characters of a string, used for the string manipulations below so that
every operation is structurally recursive and kernel-evaluable. -/
def strStartsWith (s pre : String) : Bool :=
  pre.data.isPrefixOf s.data

/-- Drop the first `n` characters, i.e. Python `s[n:]`. -/
def strDrop (s : String) (n : Nat) : String :=
  String.mk (s.data.drop n)

/-- The special-case SBo-name to pypi-name table embedded in the script
(`sbo_to_pypi_specials`, src/afterpkg.py lines 184-210).  `none` entries are
the Python `None` values. -/
def sbo_to_pypi_specials : List (String × Option String) :=
  [ ("python-cheetah",              some "Cheetah"),
    ("python-django-legacy",        some "Django"),
    ("python-xrandr",               none),
    ("python-importlib_metadata",   some "importlib-metadata"),
    ("python-uri-templates",        some "uri-template"),
    ("python-pmw",                  some "Pmw"),
    ("python-django",               some "Django"),
    ("python-distutils-extra",      none),
    ("python-elib.intl",            some "elib"),
    ("python-configargparse",       some "ConfigArgParse"),
    ("python-slip",                 some "SLIP"),
    ("python-setuptools-doc",       none),
    ("python-keybinder",            none),
    ("python-twisted",              some "Twisted"),
    ("python3-setuptools_autover",  none),
    ("python3-jupyter-ipykernel",   some "ipykernel"),
    ("python3-django",              some "Django"),
    ("python3-babel",               some "Babel"),
    ("python3-prompt_toolkit",      some "prompt-toolkit"),
    ("python3-cycler",              some "Cycler"),
    ("python3-dvdvideo",            none),
    ("websocket-client",            some "websocket_client") ]

/-- The state of a `DependencyManager` (src/afterpkg.py lines 213-238) after
construction: `packages` is `package_dirs` together with the `REQUIRES`
list parsed out of each package's `.info` file by `read_info`;
`slack_pkg_local` is the set of native-installed package stems;
`pypi_all` is the cached pypi universe; `pypi_local_py2`/`pypi_local_py3`
are the pip-installed snapshots; `novirtual` is the command-line flag. -/
structure DepManager where
  packages : List (String × List String)
  slack_pkg_local : List String
  novirtual : Bool
  pypi_all : List String
  pypi_local_py2 : List String
  pypi_local_py3 : List String

/-- The match of the regex `^(python3?-)(.*)$` used by `sbo_to_pypi`
(`self.py_rex`): the matched prefix group, if any. -/
def pyPrefixOf (name : String) : Option String :=
  if strStartsWith name "python3-" then some "python3-"
  else if strStartsWith name "python-" then some "python-"
  else none

/-- First-match lookup in the special-case table (the final `for` loop of
`sbo_to_pypi`); a table entry whose payload is `None` is returned as-is. -/
def specialsLookup (name : String) : Option String :=
  match sbo_to_pypi_specials.find? (fun p => p.1 == name) with
  | some p => p.2
  | none => none

/-- Embedding of `DependencyManager.sbo_to_pypi` (src/afterpkg.py lines 290-322):
convert an SBo name to a pypi name, trying prefix-stripped, verbatim,
`python3-`→`python-`, then the special-case table. -/
def sbo_to_pypi (dm : DepManager) (name : String) : Option String :=
  match pyPrefixOf name with
  | some pre =>
    let to_try := strDrop name pre.length
    if to_try ∈ dm.pypi_all then some to_try
    else if name ∈ dm.pypi_all then some name
    else if pre == "python3-" then
      let t2 := "python-" ++ strDrop name 8
      if t2 ∈ dm.pypi_all then some t2 else specialsLookup name
    else specialsLookup name
  | none =>
    if name ∈ dm.pypi_all then some name else specialsLookup name

/-- Embedding of `DependencyManager.has_local_package` (src/afterpkg.py lines 325-342):
is the package installed, natively or (unless `novirtual`) via pip?
The `if pip_pkg:` Python truthiness test is false for both `None` and the
empty string. -/
def has_local_package (dm : DepManager) (sbo_name : String) : Bool :=
  if sbo_name ∈ dm.slack_pkg_local then true
  else if dm.novirtual then false
  else match sbo_to_pypi dm sbo_name with
    | some pip_pkg =>
      if pip_pkg == "" then false
      else
        (strStartsWith sbo_name "python3-" && pip_pkg ∈ dm.pypi_local_py3)
        || (strStartsWith sbo_name "python-" && pip_pkg ∈ dm.pypi_local_py2)
    | none => false

/-- The ignore sentinel set of the dependency manager: the README marker
and the empty string (src/afterpkg.py line 220). -/
def ignoreSet : List String := ["%README%", ""]

/-- Embedding of `DependencyManager.is_sbo_pkg` (src/afterpkg.py lines 397-399). -/
def is_sbo_pkg (dm : DepManager) (pkg : String) : Bool :=
  (dm.packages.find? (fun e => e.1 == pkg)).isSome

/-- The filtering applied to each entry of a package's `REQUIRES` list by
`DependencyManager.lookup_deps` (src/afterpkg.py lines 355-363): drop
sentinels, drop non-SBo names, and (when `remove_local`) drop packages the
Local-Install Oracle reports installed. -/
def keep_dep (dm : DepManager) (remove_local : Bool) (dep : String) : Bool :=
  if dep ∈ ignoreSet then false
  else if !(is_sbo_pkg dm dep) then false
  else if remove_local && has_local_package dm dep then false
  else true

/-- Embedding of `DependencyManager.lookup_deps` (src/afterpkg.py lines 345-364); `none`
is the Python `None` returned for an unknown package. -/
def lookup_deps (dm : DepManager) (pkg : String) (remove_local : Bool) :
    Option (List String) :=
  match dm.packages.find? (fun e => e.1 == pkg) with
  | none => none
  | some e => some (e.2.filter (keep_dep dm remove_local))

/-- Embedding of `DependencyManager._resolve_dependencies` (src/afterpkg.py lines
367-383) with the mutated `resolved` list threaded explicitly and a fuel
parameter for termination (the Python recursion does not terminate on
cyclic inputs; `none` signals fuel exhaustion or the `sys.exit(1)` taken
for an unknown package). -/
def resolveAux (dm : DepManager) (rl : Bool) :
    Nat → List String → List String → Option (List String)
  | _, [], resolved => some resolved
  | 0, _ :: _, _ => none
  | fuel + 1, name :: rest, resolved =>
    if name ∈ resolved then resolveAux dm rl fuel rest resolved
    else
      match lookup_deps dm name rl with
      | none => none
      | some deps =>
        match (if deps.isEmpty then some resolved
               else resolveAux dm rl fuel deps resolved) with
        | none => none
        | some r2 => resolveAux dm rl fuel rest (r2 ++ [name])

/-- Embedding of `DependencyManager.resolve_dependencies` (src/afterpkg.py lines
386-389). -/
def resolve_dependencies (dm : DepManager) (package_names : List String)
    (remove_local : Bool) (fuel : Nat) : Option (List String) :=
  resolveAux dm remove_local fuel package_names []

/-- The two kinds of lock object a worker can bind for the download step:
the process-wide `DOWNLOAD_LOCK`, or a fresh `NoOpLock` whose enter/exit do
nothing (src/afterpkg.py lines 57-58 and 113-118). -/
inductive LockKind where
  | real : LockKind
  | noop : LockKind
deriving DecidableEq

/-- The lock-object choice made at worker start, src/afterpkg.py line 577:
`download_lock = DOWNLOAD_LOCK if args.getinparallel else NoOpLock()`. -/
def chooseDownloadLock (getinparallel : Bool) : LockKind :=
  if getinparallel then LockKind.real else LockKind.noop

/-- The fields of a parsed `.info` file that the download machinery reads
(`read_info`, src/afterpkg.py lines 152-180; the four listed keys are
space-split into lists, `VERSION` is scalar). -/
structure InfoDict where
  DOWNLOAD : List String
  MD5SUM : List String
  DOWNLOAD_x86_64 : List String
  MD5SUM_x86_64 : List String
  VERSION : String

/-- Python's three-argument `zip`: truncates to the shortest input. -/
def zip3 {α β γ : Type} : List α → List β → List γ → List (α × β × γ)
  | a :: as, b :: bs, c :: cs => (a, b, c) :: zip3 as bs cs
  | _, _, _ => []

/-- Characters of `url` after the first occurrence of `://`, if any
(the scheme/netloc split performed by `urlparse`). -/
def afterSchemeAux : List Char → Option (List Char)
  | ':' :: '/' :: '/' :: rest => some rest
  | _ :: rest => afterSchemeAux rest
  | [] => none

/-- Split a character list on `/`. -/
def segsAux : List Char → List Char → List (List Char)
  | [], acc => [acc.reverse]
  | '/' :: rest, acc => acc.reverse :: segsAux rest []
  | c :: rest, acc => segsAux rest (c :: acc)

/-- Embedding of `Path(urlparse(url).path).name` (src/afterpkg.py line 539): strip the
fragment and query, strip `scheme://netloc`, and take the last non-empty
path segment (pathlib's `.name` ignores trailing slashes). -/
def urlFileName (url : String) : String :=
  let u := (url.data.takeWhile (fun c => c ≠ '#')).takeWhile (fun c => c ≠ '?')
  let path :=
    match afterSchemeAux u with
    | none => u
    | some tail => tail.dropWhile (fun c => c ≠ '/')
  String.mk ((((segsAux path []).filter (fun s => s ≠ [])).getLastD []))

/-- Embedding of `required_source_files` (src/afterpkg.py lines 532-540): select the
x86_64 url/checksum lists, falling back to the generic pair when the
x86_64 url list is empty (Python `if not urls:`), derive the filenames,
and zip the three lists. -/
def required_source_files (info : InfoDict) : List (String × String × String) :=
  let urls := info.DOWNLOAD_x86_64
  let checksums := info.MD5SUM_x86_64
  let pair := if urls.isEmpty then (info.DOWNLOAD, info.MD5SUM) else (urls, checksums)
  let files := pair.1.map urlFileName
  zip3 pair.1 files pair.2

/-- Embedding of `md5_sum` (src/afterpkg.py lines 522-529), which reads the checksum of a path
through the shell; the filesystem is embedded as a map `st` from path to
the MD5 of its current content (`none` for a missing file). -/
def md5_sum (st : String → Option String) (path : String) : Option String :=
  st path

/-- Embedding of `download_file_commands` (src/afterpkg.py lines 543-550): one
`(wget command, download location)` pair for every source file whose
currently stored checksum differs from the expected one. -/
def download_file_commands (st : String → Option String) (info : InfoDict)
    (download_dir : String) : List (String × String) :=
  (required_source_files info).filterMap (fun e =>
    let url := e.1
    let fname := e.2.1
    let checksum := e.2.2
    let download_location := download_dir ++ "/" ++ fname
    if md5_sum st download_location ≠ some checksum then
      some ("wget --no-check-certificate -O " ++ download_location ++ " " ++ url,
            download_location)
    else none)

/-- The shell commands the worker issues during the download step of one
job (src/afterpkg.py lines 610-616): for every mismatching entry a
`mkdir -p` followed by the `wget`, then a `cp` into the working directory
for every source file.  There is no further command in this step. -/
def downloadPhaseCommands (st : String → Option String) (info : InfoDict)
    (download_dir working_dir : String) : List String :=
  ((download_file_commands st info download_dir).flatMap
      (fun c => ["mkdir -p " ++ download_dir, c.1]))
  ++ (required_source_files info).map
      (fun e => "cp " ++ download_dir ++ "/" ++ e.2.1 ++ " "
                ++ working_dir ++ "/" ++ e.2.1)

/-- Whether the download step raises: `Runner.run` (src/afterpkg.py lines
484-511) raises `OSError` exactly when an executed command exits non-zero,
embedded as the predicate `execOk` on command strings.  No other statement
in the download step can raise. -/
def downloadPhaseRaises (execOk : String → Bool) (st : String → Option String)
    (info : InfoDict) (download_dir working_dir : String) : Bool :=
  (downloadPhaseCommands st info download_dir working_dir).any
    (fun c => !(execOk c))

/-- The filesystem state after the download step: each executed
`wget -O location url` replaces the content of `location` with the bytes
the network serves for `url` (`server url` is their MD5).  The gating
condition mirrors `download_file_commands` and is evaluated against the
pre-step state, exactly as the command list is precomputed in the source. -/
def downloadPhaseState (st : String → Option String) (server : String → String)
    (info : InfoDict) (download_dir : String) : String → Option String :=
  (required_source_files info).foldl (fun s e =>
    let url := e.1
    let fname := e.2.1
    let checksum := e.2.2
    let loc := download_dir ++ "/" ++ fname
    if md5_sum st loc ≠ some checksum then
      (fun p => if p = loc then some (server url) else s p)
    else s) st

/-- How a worker thread leaves its job loop. -/
inductive BotExit where
  /-- Returned normally after receiving the sentinel `None` job. -/
  | returned : BotExit
  /-- An exception propagated out of the `with JobContext` block,
  terminating the thread. -/
  | raised : BotExit
  /-- The job queue was exhausted without a sentinel: `job_q.get(True)`
  blocks forever. -/
  | starved : BotExit
deriving DecidableEq

/-- The receive loop of `bot_thread` (src/afterpkg.py lines 579-585)
together with the `JobContext` framing (lines 553-563): for each job the
body either completes (`body p = true`, `Success p` i.e. `some p` is put on
the done queue) or raises (`Failure` i.e. `none` is put on the done queue
by `JobContext.__exit__`, which does not suppress the exception, so it
propagates and kills the thread).  Returns the sequence of done-queue
messages and the way the loop ended. -/
def botLoop (body : String → Bool) :
    List (Option String) → List (Option String) × BotExit
  | [] => ([], BotExit.starved)
  | none :: _ => ([], BotExit.returned)
  | some p :: rest =>
    if body p then
      let r := botLoop body rest
      (some p :: r.1, r.2)
    else ([none], BotExit.raised)

/-- The hook-script lookup tables built by `ScriptManager`
(src/afterpkg.py lines 402-430), with each present script replaced by its
file contents as a byte list. -/
structure Scripts where
  before : String → Option (List Nat)
  after : String → Option (List Nat)
  requiresSh : String → Option (List Nat)

/-- The bytes of `b'#!/bin/sh\n'` (src/afterpkg.py line 623). -/
def shebang : List Nat := [35, 33, 47, 98, 105, 110, 47, 115, 104, 10]

/-- The composite-script assembly of `bot_thread` (src/afterpkg.py lines
623-645): shebang, then `before.sh` if present, then the `requires.sh` of
every package in the closure of a second resolve pass over `[package]`
with `remove_local = False`, skipping `package` itself, then the
`.SlackBuild` contents, then `after.sh` if present.  `none` when the
resolve pass fails. -/
def assembleScript (dm : DepManager) (scripts : Scripts) (package : String)
    (build : List Nat) (fuel : Nat) : Option (List Nat) :=
  match resolve_dependencies dm [package] false fuel with
  | none => none
  | some closure =>
    let t0 := shebang
    let t1 := match scripts.before package with
              | some b => t0 ++ b
              | none => t0
    let t2 := closure.foldl (fun acc dep =>
        if dep = package then acc
        else match scripts.requiresSh dep with
             | some r => acc ++ r
             | none => acc) t1
    let t3 := t2 ++ build
    match scripts.after package with
    | some a => some (t3 ++ a)
    | none => some t3

/-- Embedding of `get_remote_command` (src/afterpkg.py lines 65-71).  `g_ssh_host` is
`None` by default and is set from `--targethost`; the Python truthiness
test is false for `None` and for the empty string. -/
def get_remote_command (g_ssh_host : Option String) (command : String) : String :=
  match g_ssh_host with
  | some host =>
    if !host.isEmpty then "ssh " ++ host ++ " \"" ++ command ++ "\""
    else command
  | none => command

/-- Embedding of `put_file_to_remote` (src/afterpkg.py lines 74-85): the `~/` prefix is
stripped from `dest` before the remote/local branch. -/
def put_file_to_remote (g_ssh_host : Option String) (src dest : String) : String :=
  let dest2 := if strStartsWith dest "~/" then strDrop dest 2 else dest
  match g_ssh_host with
  | some host =>
    if !host.isEmpty then "scp -r " ++ src ++ " " ++ host ++ ":" ++ dest2
    else "cp -r " ++ src ++ " " ++ dest2
  | none => "cp -r " ++ src ++ " " ++ dest2

/-- One wave of the scheduler (src/afterpkg.py lines 736-741): the
packages of `pending` whose every remaining dependency has been built.
`lookup_deps` is called with its default `remove_local=True`; every
scheduled name is a resolver output and hence a known package (an unknown
name would already have aborted the run at resolve time). -/
def computeQueued (dm : DepManager) (pending built : List String) : List String :=
  pending.filter (fun p =>
    ((lookup_deps dm p true).getD []).all (fun d => built.contains d))

/-- The scheduler wave loop of `start_build_engine` (src/afterpkg.py lines
729-754), with the done-queue receives supplied as the list `dones`
(`none` is a `Failure` signal, which breaks the loop).  The result is the
enqueue log: each package ever put on the job queue, paired with the
`built` set at the moment it was enqueued. -/
def engineAux (dm : DepManager) :
    Nat → List String → List String → List (Option String) →
    List (String × List String)
  | 0, _, _, _ => []
  | fuel + 1, pending, built, dones =>
    if pending.isEmpty then []
    else
      let queued := computeQueued dm pending built
      let log := queued.map (fun p => (p, built))
      let pending2 := pending.filter (fun p => !(queued.contains p))
      match dones with
      | [] => log
      | none :: _ => log
      | some d :: rest => log ++ engineAux dm fuel pending2 (built ++ [d]) rest

/-! ### Helper lemmas about the resolver -/

/-- The resolver only ever appends to the `resolved` accumulator. -/
lemma resolveAux_extends (dm : DepManager) (rl : Bool) :
    ∀ (fuel : Nat) (work resolved out : List String),
    resolveAux dm rl fuel work resolved = some out →
    ∃ t, out = resolved ++ t := by
  intro fuel
  induction fuel with
  | zero =>
    intro work resolved out h
    cases work with
    | nil =>
      simp only [resolveAux, Option.some.injEq] at h
      exact ⟨[], by simp [h]⟩
    | cons a as => simp [resolveAux] at h
  | succ n ih =>
    intro work resolved out h
    cases work with
    | nil =>
      simp only [resolveAux, Option.some.injEq] at h
      exact ⟨[], by simp [h]⟩
    | cons name rest =>
      rw [resolveAux] at h
      by_cases hmem : name ∈ resolved
      · rw [if_pos hmem] at h
        exact ih rest resolved out h
      · rw [if_neg hmem] at h
        cases hl : lookup_deps dm name rl with
        | none => rw [hl] at h; cases h
        | some deps =>
          rw [hl] at h
          dsimp only at h
          cases hq : (if deps.isEmpty then some resolved
                      else resolveAux dm rl n deps resolved) with
          | none => rw [hq] at h; cases h
          | some r2 =>
            rw [hq] at h
            dsimp only at h
            have hr2 : ∃ t1, r2 = resolved ++ t1 := by
              by_cases he : deps.isEmpty
              · rw [if_pos he] at hq
                exact ⟨[], by simpa using (Option.some.injEq _ _ ▸ hq).symm⟩
              · rw [if_neg he] at hq
                exact ih deps resolved r2 hq
            obtain ⟨t1, ht1⟩ := hr2
            obtain ⟨t2, ht2⟩ := ih rest (r2 ++ [name]) out h
            exact ⟨t1 ++ [name] ++ t2, by simp [ht2, ht1, List.append_assoc]⟩

/-- Everything on the worklist of a successful resolver run is in the
output. -/
lemma resolveAux_work_mem (dm : DepManager) (rl : Bool) :
    ∀ (fuel : Nat) (work resolved out : List String),
    resolveAux dm rl fuel work resolved = some out →
    ∀ w ∈ work, w ∈ out := by
  intro fuel
  induction fuel with
  | zero =>
    intro work resolved out h w hw
    cases work with
    | nil => cases hw
    | cons a as => simp [resolveAux] at h
  | succ n ih =>
    intro work resolved out h w hw
    cases work with
    | nil => cases hw
    | cons name rest =>
      rw [resolveAux] at h
      by_cases hmem : name ∈ resolved
      · rw [if_pos hmem] at h
        rcases List.mem_cons.mp hw with hwn | hwr
        · obtain ⟨t, ht⟩ := resolveAux_extends dm rl n rest resolved out h
          subst hwn
          exact ht ▸ List.mem_append.mpr (Or.inl hmem)
        · exact ih rest resolved out h w hwr
      · rw [if_neg hmem] at h
        cases hl : lookup_deps dm name rl with
        | none => rw [hl] at h; cases h
        | some deps =>
          rw [hl] at h
          dsimp only at h
          cases hq : (if deps.isEmpty then some resolved
                      else resolveAux dm rl n deps resolved) with
          | none => rw [hq] at h; cases h
          | some r2 =>
            rw [hq] at h
            dsimp only at h
            rcases List.mem_cons.mp hw with hwn | hwr
            · obtain ⟨t, ht⟩ := resolveAux_extends dm rl n rest (r2 ++ [name]) out h
              subst hwn
              have : w ∈ r2 ++ [w] := List.mem_append.mpr (Or.inr (by simp))
              exact ht ▸ List.mem_append.mpr (Or.inl this)
            · exact ih rest (r2 ++ [name]) out h w hwr

/-- The topological-order invariant maintained by the resolver: every
member's looked-up dependencies are in the list, strictly earlier (first
occurrences). -/
def TopoInv (dm : DepManager) (rl : Bool) (l : List String) : Prop :=
  ∀ a ∈ l, ∀ deps, lookup_deps dm a rl = some deps → ∀ b ∈ deps,
    b ∈ l ∧ l.indexOf b < l.indexOf a

lemma topoInv_append (dm : DepManager) (rl : Bool) (l : List String) (x : String)
    (hInv : TopoInv dm rl l)
    (hdeps : ∀ deps, lookup_deps dm x rl = some deps → ∀ b ∈ deps, b ∈ l) :
    TopoInv dm rl (l ++ [x]) := by
  intro a ha deps hd b hb
  rcases List.mem_append.mp ha with hal | hax
  · obtain ⟨hbl, hlt⟩ := hInv a hal deps hd b hb
    refine ⟨List.mem_append.mpr (Or.inl hbl), ?_⟩
    rw [List.indexOf_append_of_mem hbl, List.indexOf_append_of_mem hal]
    exact hlt
  · have hax2 : a = x := by simpa using hax
    subst hax2
    by_cases hxl : a ∈ l
    · obtain ⟨hbl, hlt⟩ := hInv a hxl deps hd b hb
      refine ⟨List.mem_append.mpr (Or.inl hbl), ?_⟩
      rw [List.indexOf_append_of_mem hbl, List.indexOf_append_of_mem hxl]
      exact hlt
    · have hbl : b ∈ l := hdeps deps hd b hb
      refine ⟨List.mem_append.mpr (Or.inl hbl), ?_⟩
      rw [List.indexOf_append_of_mem hbl, List.indexOf_append_of_not_mem hxl]
      have h1 : l.indexOf b < l.length := List.indexOf_lt_length.mpr hbl
      simpa [List.indexOf_cons_self] using h1

/-- A successful resolver run preserves the topological-order invariant. -/
lemma resolveAux_topoInv (dm : DepManager) (rl : Bool) :
    ∀ (fuel : Nat) (work resolved out : List String),
    resolveAux dm rl fuel work resolved = some out →
    TopoInv dm rl resolved → TopoInv dm rl out := by
  intro fuel
  induction fuel with
  | zero =>
    intro work resolved out h hi
    cases work with
    | nil => simp only [resolveAux, Option.some.injEq] at h; exact h ▸ hi
    | cons a as => simp [resolveAux] at h
  | succ n ih =>
    intro work resolved out h hi
    cases work with
    | nil => simp only [resolveAux, Option.some.injEq] at h; exact h ▸ hi
    | cons name rest =>
      rw [resolveAux] at h
      by_cases hmem : name ∈ resolved
      · rw [if_pos hmem] at h
        exact ih rest resolved out h hi
      · rw [if_neg hmem] at h
        cases hl : lookup_deps dm name rl with
        | none => rw [hl] at h; cases h
        | some deps =>
          rw [hl] at h
          dsimp only at h
          cases hq : (if deps.isEmpty then some resolved
                      else resolveAux dm rl n deps resolved) with
          | none => rw [hq] at h; cases h
          | some r2 =>
            rw [hq] at h
            dsimp only at h
            have hr2inv : TopoInv dm rl r2 := by
              by_cases he : deps.isEmpty
              · rw [if_pos he] at hq
                have : resolved = r2 := by simpa using hq
                exact this ▸ hi
              · rw [if_neg he] at hq
                exact ih deps resolved r2 hq hi
            have hdeps : ∀ deps2, lookup_deps dm name rl = some deps2 →
                ∀ b ∈ deps2, b ∈ r2 := by
              intro deps2 hl2 b hb
              rw [hl] at hl2
              have hde : deps = deps2 := by simpa using hl2
              subst hde
              by_cases he : deps.isEmpty
              · rw [List.isEmpty_iff] at he
                subst he
                cases hb
              · rw [if_neg he] at hq
                exact resolveAux_work_mem dm rl n deps resolved r2 hq b hb
            exact ih rest (r2 ++ [name]) out h
              (topoInv_append dm rl r2 name hr2inv hdeps)

/-- Every member of the resolver output came from the initial accumulator,
the initial worklist, or some package's filtered dependency list. -/
lemma resolveAux_mem_origin (dm : DepManager) (rl : Bool) :
    ∀ (fuel : Nat) (work resolved out : List String),
    resolveAux dm rl fuel work resolved = some out →
    ∀ x ∈ out, x ∈ resolved ∨ x ∈ work ∨
      ∃ a deps, lookup_deps dm a rl = some deps ∧ x ∈ deps := by
  intro fuel
  induction fuel with
  | zero =>
    intro work resolved out h x hx
    cases work with
    | nil =>
      simp only [resolveAux, Option.some.injEq] at h
      exact Or.inl (h ▸ hx)
    | cons a as => simp [resolveAux] at h
  | succ n ih =>
    intro work resolved out h x hx
    cases work with
    | nil =>
      simp only [resolveAux, Option.some.injEq] at h
      exact Or.inl (h ▸ hx)
    | cons name rest =>
      rw [resolveAux] at h
      by_cases hmem : name ∈ resolved
      · rw [if_pos hmem] at h
        rcases ih rest resolved out h x hx with h0 | h1 | h2
        · exact Or.inl h0
        · exact Or.inr (Or.inl (List.mem_cons.mpr (Or.inr h1)))
        · exact Or.inr (Or.inr h2)
      · rw [if_neg hmem] at h
        cases hl : lookup_deps dm name rl with
        | none => rw [hl] at h; cases h
        | some deps =>
          rw [hl] at h
          dsimp only at h
          cases hq : (if deps.isEmpty then some resolved
                      else resolveAux dm rl n deps resolved) with
          | none => rw [hq] at h; cases h
          | some r2 =>
            rw [hq] at h
            dsimp only at h
            rcases ih rest (r2 ++ [name]) out h x hx with h0 | h1 | h2
            · rcases List.mem_append.mp h0 with h0l | h0r
              · -- x landed in r2: either it was already in resolved, came
                -- from the worklist deps, or from a deeper dependency list
                by_cases he : deps.isEmpty
                · rw [if_pos he] at hq
                  have : resolved = r2 := by simpa using hq
                  exact Or.inl (this ▸ h0l)
                · rw [if_neg he] at hq
                  rcases ih deps resolved r2 hq x h0l with g0 | g1 | g2
                  · exact Or.inl g0
                  · exact Or.inr (Or.inr ⟨name, deps, hl, g1⟩)
                  · exact Or.inr (Or.inr g2)
              · have : x = name := by simpa using h0r
                exact Or.inr (Or.inl (List.mem_cons.mpr (Or.inl this)))
            · exact Or.inr (Or.inl (List.mem_cons.mpr (Or.inr h1)))
            · exact Or.inr (Or.inr h2)

/-- Membership in a `lookup_deps` result implies the filtering predicate. -/
lemma lookup_deps_mem_keep (dm : DepManager) (pkg : String) (rl : Bool)
    (deps : List String) (h : lookup_deps dm pkg rl = some deps) :
    ∀ d ∈ deps, keep_dep dm rl d = true := by
  unfold lookup_deps at h
  cases hf : dm.packages.find? (fun e => e.1 == pkg) with
  | none => rw [hf] at h; cases h
  | some e =>
    rw [hf] at h
    have h2 : e.2.filter (keep_dep dm rl) = deps := by simpa using h
    intro d hd
    rw [← h2] at hd
    exact List.of_mem_filter hd

/-- Dependencies surviving the `remove_local` filter are not locally
installed. -/
lemma keep_dep_not_local (dm : DepManager) (d : String)
    (h : keep_dep dm true d = true) : has_local_package dm d = false := by
  cases hh : has_local_package dm d
  · rfl
  · exfalso
    unfold keep_dep at h
    rw [hh] at h
    simp at h

/-! ### Helper lemmas about the scheduler, worker and download machinery -/

/-- A package passes the wave filter only if all its looked-up
dependencies are already built. -/
lemma mem_computeQueued (dm : DepManager) (pending built : List String)
    (p : String) (h : p ∈ computeQueued dm pending built)
    (deps : List String) (hl : lookup_deps dm p true = some deps) :
    ∀ d ∈ deps, d ∈ built := by
  unfold computeQueued at h
  have h2 := List.of_mem_filter h
  rw [hl] at h2
  have h3 : ∀ x ∈ deps, x ∈ built := by simpa using h2
  exact h3

/-- Folding byte-append over a list is appending the join of the images. -/
lemma foldl_append_join (g : String → List Nat) :
    ∀ (l : List String) (acc : List Nat),
    l.foldl (fun a d => a ++ g d) acc = acc ++ (l.map g).flatten := by
  intro l
  induction l with
  | nil => intro acc; simp
  | cons d ds ih => intro acc; simp [ih, List.append_assoc]

/-- The `requires`-accumulation fold of the composite-script assembly,
rewritten as one concatenation. -/
lemma assemble_fold_eq (scripts : Scripts) (package : String) :
    ∀ (l : List String) (acc : List Nat),
    l.foldl (fun acc dep =>
        if dep = package then acc
        else match scripts.requiresSh dep with
             | some r => acc ++ r
             | none => acc) acc
      = acc ++ ((l.filter (fun d => d ≠ package)).map
          (fun d => (scripts.requiresSh d).getD [])).flatten := by
  intro l
  induction l with
  | nil => intro acc; simp
  | cons d ds ih =>
    intro acc
    by_cases hd : d = package
    · simp [hd, ih]
    · cases hr : scripts.requiresSh d <;>
        simp [hd, hr, ih, List.append_assoc]

/-- Python `zip(as, map f as, cs)` indexes pointwise. -/
lemma zip3_map_get (f : String → String) :
    ∀ (as : List String) (cs : List String) (i : Nat),
    (zip3 as (as.map f) cs).get? i =
      match as.get? i, cs.get? i with
      | some a, some c => some (a, f a, c)
      | _, _ => none := by
  intro as
  induction as with
  | nil => intro cs i; cases cs <;> cases i <;> simp [zip3]
  | cons a as ih =>
    intro cs i
    cases cs with
    | nil => cases i <;> simp [zip3]
    | cons c cs =>
      cases i with
      | zero => simp [zip3]
      | succ n => simpa [zip3] using ih cs n

/-- Python `zip(as, map f as, cs)` truncates to the shorter list. -/
lemma zip3_map_length (f : String → String) :
    ∀ (as cs : List String),
    (zip3 as (as.map f) cs).length = min as.length cs.length := by
  intro as
  induction as with
  | nil => intro cs; cases cs <;> simp [zip3]
  | cons a as ih =>
    intro cs
    cases cs with
    | nil => simp [zip3]
    | cons c cs => simp [zip3, ih, Nat.succ_min_succ]

/-- The url/checksum pair the download step works from: the x86_64 pair,
or the generic pair when the x86_64 url list is empty (spec §4.6 step 4). -/
def selected_urls (info : InfoDict) : List String :=
  if info.DOWNLOAD_x86_64.isEmpty then info.DOWNLOAD else info.DOWNLOAD_x86_64

/-- Companion of `selected_urls` for the checksum list. -/
def selected_md5s (info : InfoDict) : List String :=
  if info.DOWNLOAD_x86_64.isEmpty then info.MD5SUM else info.MD5SUM_x86_64

/-! ### Concrete fixtures used by counterexamples and witnesses -/

/-- Repository with `c` requiring `b a` (in that, non-lexicographic, `.info`
order), nothing installed. -/
def dmRequiresOrder : DepManager :=
  { packages := [("c", ["b", "a"]), ("b", []), ("a", [])]
    slack_pkg_local := []
    novirtual := true
    pypi_all := []
    pypi_local_py2 := []
    pypi_local_py3 := [] }

/-- Repository with a single package `a` that is already installed. -/
def dmInstalledTarget : DepManager :=
  { packages := [("a", [])]
    slack_pkg_local := ["a"]
    novirtual := true
    pypi_all := []
    pypi_local_py2 := []
    pypi_local_py3 := [] }

/-- Repository with `a` requiring `b`, `a` installed, `b` not. -/
def dmInstalledChain : DepManager :=
  { packages := [("a", ["b"]), ("b", [])]
    slack_pkg_local := ["a"]
    novirtual := true
    pypi_all := []
    pypi_local_py2 := []
    pypi_local_py3 := [] }

/-- Repository with `a` requiring `b`, `b` installed. -/
def dmInstalledDep : DepManager :=
  { packages := [("a", ["b"]), ("b", [])]
    slack_pkg_local := ["b"]
    novirtual := true
    pypi_all := []
    pypi_local_py2 := []
    pypi_local_py3 := [] }

/-- Repository with `a` requiring `b`, nothing installed. -/
def dmEdge : DepManager :=
  { packages := [("a", ["b"]), ("b", [])]
    slack_pkg_local := []
    novirtual := true
    pypi_all := []
    pypi_local_py2 := []
    pypi_local_py3 := [] }

/-- Repository with `p` requiring `d`, nothing installed. -/
def dmScript : DepManager :=
  { packages := [("p", ["d"]), ("d", [])]
    slack_pkg_local := []
    novirtual := true
    pypi_all := []
    pypi_local_py2 := []
    pypi_local_py3 := [] }

/-- Hook scripts for the `dmScript` repository: a before/after pair for `p`,
a requires script for every package (so that skipping `p`'s own requires
script is observable). -/
def scriptsFixture : Scripts :=
  { before := fun p => if p == "p" then some [1] else none
    after := fun p => if p == "p" then some [3] else none
    requiresSh := fun d => if d == "d" then some [2] else some [9] }

/-- One generic source file with expected checksum `00cafe`. -/
def infoOneFile : InfoDict :=
  { DOWNLOAD := ["http://host/src.tgz"]
    MD5SUM := ["00cafe"]
    DOWNLOAD_x86_64 := []
    MD5SUM_x86_64 := []
    VERSION := "1.0" }

/-- Two generic urls but a single checksum (and empty x86_64 lists). -/
def infoSurplusUrl : InfoDict :=
  { DOWNLOAD := ["http://h/a.tgz", "http://h/b.tgz"]
    MD5SUM := ["m1"]
    DOWNLOAD_x86_64 := []
    MD5SUM_x86_64 := []
    VERSION := "1.0" }

/-- An empty filesystem: no file has any checksum. -/
def stEmpty : String → Option String := fun _ => none

/-- A network that serves content hashing to `deadbeef` for every url. -/
def serverBad : String → String := fun _ => "deadbeef"

/-! ### Claims -/

/-- C1: the claim states that the worker binds the real process-wide
`DOWNLOAD_LOCK` when `getinparallel` is unset and a `NoOpLock` when it is
set.  The code does the opposite: `download_lock = DOWNLOAD_LOCK if
args.getinparallel else NoOpLock()` (src/afterpkg.py line 577) selects the
no-op lock exactly when parallel downloads are DISABLED, contradicting the
program's own `--getinparallel` help text ("Normally downloads will be
one-by-one.  This will run them in parallel").  This theorem evaluates the
code's choice at both flag values. -/
theorem chooseDownloadLock_inverted :
    chooseDownloadLock false = LockKind.noop
    ∧ chooseDownloadLock true = LockKind.real
    ∧ LockKind.noop ≠ LockKind.real := by
  refine ⟨rfl, rfl, by decide⟩

/-- C2 (counterexample): a locally-installed package that is itself a
user-supplied target is NOT omitted from the resolved build list — the
code has no `isSatisfied` check before appending the visited name. -/
theorem resolve_keeps_installed_target_cex :
    has_local_package dmInstalledTarget "a" = true
    ∧ "a" ∈ (resolve_dependencies dmInstalledTarget ["a"] true 5).getD [] := by
  refine ⟨by decide, by decide⟩

/-- C2 (amended): with `skipSatisfied` (`remove_local = true`), every
locally-installed package in the resolved list must be one of the
user-supplied targets; installed packages reached only as dependencies are
omitted (they are filtered out of every `lookup_deps` result). -/
theorem resolve_installed_implies_target (dm : DepManager) (fuel : Nat)
    (targets out : List String) (p : String)
    (h : resolve_dependencies dm targets true fuel = some out)
    (hp : p ∈ out) (hloc : has_local_package dm p = true) : p ∈ targets := by
  rcases resolveAux_mem_origin dm true fuel targets [] out h p hp with
    h0 | h1 | ⟨a, deps, hl, hd⟩
  · exact absurd h0 (List.not_mem_nil p)
  · exact h1
  · have hf := keep_dep_not_local dm p
      (lookup_deps_mem_keep dm a true deps hl p hd)
    rw [hf] at hloc
    cases hloc

/-- C2 (witness). -/
theorem resolve_installed_implies_target_witness :
    "a" ∈ (["a"] : List String) :=
  resolve_installed_implies_target dmInstalledChain 10 ["a"] ["b", "a"] "a"
    (by decide) (by decide) (by decide)

/-- C3 (counterexample): the .info `REQUIRES` order of `c` is `b a`; the
resolver visits `b` first even though `a` is lexicographically smaller, so
sibling order is NOT lexicographically ascending. -/
theorem resolve_not_lexicographic_cex :
    lookup_deps dmRequiresOrder "c" true = some ["b", "a"]
    ∧ resolve_dependencies dmRequiresOrder ["c"] true 10 = some ["b", "a", "c"]
    ∧ ('a' : Char) < 'b' := by
  refine ⟨by decide, by decide, by decide⟩

/-- C3 (amended): the resolver visits the filtered dependencies of a node
in the order in which they appear in the node's `REQUIRES` list — the
`lookup_deps` result, unsorted.  (Determinism across runs follows because
that order is a function of the inputs, not because of any sorting.) -/
theorem resolve_visits_requires_order (dm : DepManager) (rl : Bool)
    (fuel : Nat) (name : String) (rest resolved deps : List String)
    (h1 : name ∉ resolved) (h2 : lookup_deps dm name rl = some deps)
    (h3 : deps ≠ []) :
    resolveAux dm rl (fuel + 1) (name :: rest) resolved =
      (match resolveAux dm rl fuel deps resolved with
       | none => none
       | some r2 => resolveAux dm rl fuel rest (r2 ++ [name])) := by
  rw [resolveAux, if_neg h1, h2]
  have he : deps.isEmpty = false := by
    cases deps with
    | nil => exact absurd rfl h3
    | cons a as => rfl
  dsimp only
  rw [he]
  rfl

/-- C3 (witness). -/
theorem resolve_visits_requires_order_witness :
    resolveAux dmRequiresOrder true 10 ["c"] [] =
      (match resolveAux dmRequiresOrder true 9 ["b", "a"] [] with
       | none => none
       | some r2 => resolveAux dmRequiresOrder true 9 [] (r2 ++ ["c"])) :=
  resolve_visits_requires_order dmRequiresOrder true 9 "c" [] [] ["b", "a"]
    (by decide) (by decide) (by decide)

/-- C5 (counterexample): with edges defined by sentinel and non-recipe
filtering only (the claim's definition, `remove_local = false`), the edge
`a → b` exists, both `a` and `b` are in the output of
`resolve(["a", "b"], skipSatisfied)` — but `b` FOLLOWS `a`, because `b` is
installed and hence filtered out of `a`'s dependency list during the pass
while still being appended as a user target. -/
theorem resolve_edge_not_before_cex :
    lookup_deps dmInstalledDep "a" false = some ["b"]
    ∧ resolve_dependencies dmInstalledDep ["a", "b"] true 10 = some ["a", "b"]
    ∧ (["a", "b"] : List String).indexOf "a" = 0
    ∧ (["a", "b"] : List String).indexOf "b" = 1 := by
  refine ⟨by decide, by decide, by decide, by decide⟩

/-- C5 (amended): for every pair `a`, `b` in the resolver output such that
`b` appears in `a`'s dependency list after the FULL filtering of the pass
(sentinels, non-recipe names, and — when `skipSatisfied` — locally
installed packages), `b` precedes `a` in the output: its first occurrence
has a strictly smaller index. -/
theorem resolve_topological_order (dm : DepManager) (rl : Bool) (fuel : Nat)
    (targets out : List String)
    (h : resolve_dependencies dm targets rl fuel = some out) :
    ∀ a ∈ out, ∀ deps, lookup_deps dm a rl = some deps → ∀ b ∈ deps,
      b ∈ out ∧ out.indexOf b < out.indexOf a :=
  resolveAux_topoInv dm rl fuel targets [] out h
    (by intro a ha; exact absurd ha (List.not_mem_nil a))

/-- C5 (witness). -/
theorem resolve_topological_order_witness :
    "b" ∈ (["b", "a"] : List String)
    ∧ (["b", "a"] : List String).indexOf "b" < (["b", "a"] : List String).indexOf "a" :=
  resolve_topological_order dmEdge true 10 ["a"] ["b", "a"] (by decide)
    "a" (by decide) ["b"] (by decide) "b" (by decide)

/-- C4 (counterexample): the expected checksum of the only source file is
`00cafe`; the network serves content hashing to `deadbeef`; the `wget` is
issued (the file was absent) and every command succeeds — yet the download
step raises nothing: after the successful fetch the stored checksum still
differs from the expected one and the job continues.  The worker never
re-checks the checksum after downloading. -/
theorem download_mismatch_not_fatal_cex :
    ("wget --no-check-certificate -O dl/src.tgz http://host/src.tgz"
        ∈ downloadPhaseCommands stEmpty infoOneFile "dl" "wk")
    ∧ downloadPhaseRaises (fun _ => true) stEmpty infoOneFile "dl" "wk" = false
    ∧ downloadPhaseState stEmpty serverBad infoOneFile "dl" "dl/src.tgz"
        = some "deadbeef"
    ∧ infoOneFile.MD5SUM = ["00cafe"]
    ∧ (some "deadbeef" : Option String) ≠ some "00cafe" := by
  refine ⟨by decide, by decide, by decide, by decide, by decide⟩

/-- C4 (amended): checksums gate only whether a fetch is attempted (the
pre-download comparison in `download_file_commands`); the download step of
a job raises — terminating the job with a Failure — if and only if one of
its issued shell commands exits non-zero.  No post-download checksum
verification exists. -/
theorem downloadPhase_fails_iff_command_fails (execOk : String → Bool)
    (st : String → Option String) (info : InfoDict) (ddir wdir : String) :
    downloadPhaseRaises execOk st info ddir wdir = true ↔
      ∃ c ∈ downloadPhaseCommands st info ddir wdir, execOk c = false := by
  unfold downloadPhaseRaises
  simp [List.any_eq_true]

/-- C6: every package the scheduler's wave loop ever enqueues has all of
its looked-up dependencies — in particular those lying in the resolved
list `R` — in the `built` set at the moment of enqueueing. -/
theorem scheduler_ready_invariant (dm : DepManager) (fuel : Nat)
    (pending built : List String) (dones : List (Option String))
    (R : List String) (p : String) (b : List String)
    (hlog : (p, b) ∈ engineAux dm fuel pending built dones)
    (deps : List String) (hl : lookup_deps dm p true = some deps) :
    ∀ d ∈ deps, d ∈ R → d ∈ b := by
  induction fuel generalizing pending built dones with
  | zero => simp [engineAux] at hlog
  | succ n ih =>
    rw [engineAux] at hlog
    by_cases hpe : pending.isEmpty
    · rw [if_pos hpe] at hlog
      cases hlog
    · rw [if_neg hpe] at hlog
      dsimp only at hlog
      have hwave : ∀ q bq, (q, bq) ∈ (computeQueued dm pending built).map
          (fun p => (p, built)) → q ∈ computeQueued dm pending built ∧ bq = built := by
        intro q bq hm
        rcases List.mem_map.mp hm with ⟨x, hx, hxe⟩
        cases hxe
        exact ⟨hx, rfl⟩
      cases dones with
      | nil =>
        obtain ⟨hq, hb⟩ := hwave p b hlog
        subst hb
        intro d hd _
        exact mem_computeQueued dm pending b p hq deps hl d hd
      | cons o rest =>
        cases o with
        | none =>
          obtain ⟨hq, hb⟩ := hwave p b hlog
          subst hb
          intro d hd _
          exact mem_computeQueued dm pending b p hq deps hl d hd
        | some dpkg =>
          rcases List.mem_append.mp hlog with hleft | hright
          · obtain ⟨hq, hb⟩ := hwave p b hleft
            subst hb
            intro d hd _
            exact mem_computeQueued dm pending b p hq deps hl d hd
          · exact ih _ _ _ hright

/-- C6 (witness). -/
theorem scheduler_ready_invariant_witness : "b" ∈ (["b"] : List String) :=
  scheduler_ready_invariant dmEdge 5 ["b", "a"] [] [some "b", some "a"]
    ["b", "a"] "a" ["b"] (by decide) ["b"] (by decide) "b" (by decide) (by decide)

/-- C7 (counterexample): a worker that receives a failing job, then a good
job, then the sentinel, sends exactly one `Failure` on the done channel
and terminates by the propagating exception: the good job is never
processed and the worker does not return normally at the sentinel. -/
theorem botLoop_dies_on_failure_cex :
    botLoop (fun q => !(q == "bad")) [some "bad", some "ok", none]
        = ([none], BotExit.raised)
    ∧ some "ok" ∉ (botLoop (fun q => !(q == "bad"))
        [some "bad", some "ok", none]).1
    ∧ (botLoop (fun q => !(q == "bad")) [some "bad", some "ok", none]).2
        ≠ BotExit.returned := by
  refine ⟨by decide, by decide, by decide⟩

/-- C7 (amended): after any number of successful jobs, a failing job makes
the worker send `Failure` (`none`) on the done channel and then re-raise
out of the receive loop, terminating the thread: subsequent jobs —
including any sentinel — are never received.  (A sentinel reached without
a prior failure still causes a normal return, by definition of
`botLoop`.) -/
theorem botLoop_failure_kills_worker (body : String → Bool)
    (pre : List String) (p : String) (rest : List (Option String))
    (hpre : ∀ q ∈ pre, body q = true) (hp : body p = false) :
    botLoop body (pre.map some ++ some p :: rest)
      = (pre.map some ++ [none], BotExit.raised) := by
  induction pre with
  | nil => simp [botLoop, hp]
  | cons q qs ih =>
    have hq : body q = true := hpre q (by simp)
    have ih2 := ih (fun r hr => hpre r (by simp [hr]))
    simp [botLoop, hq, ih2]

/-- C7 (witness). -/
theorem botLoop_failure_kills_worker_witness :
    botLoop (fun q => !(q == "bad")) (["ok"].map some ++ some "bad" :: [some "x", none])
      = (["ok"].map some ++ [none], BotExit.raised) :=
  botLoop_failure_kills_worker (fun q => !(q == "bad")) ["ok"] "bad"
    [some "x", none] (by decide) (by decide)

/-- C8: the composite script equals the concatenation, in order, of the
shebang, the `before.sh` bytes if present, the `requires.sh` bytes of each
member of the second-pass (`skipSatisfied = false`) closure of `p`
excluding `p` itself, the `.SlackBuild` bytes, and the `after.sh` bytes if
present. -/
theorem assembleScript_is_concat (dm : DepManager) (scripts : Scripts)
    (p : String) (build : List Nat) (fuel : Nat) (closure : List String)
    (h : resolve_dependencies dm [p] false fuel = some closure) :
    assembleScript dm scripts p build fuel =
      some (shebang
        ++ (scripts.before p).getD []
        ++ ((closure.filter (fun d => d ≠ p)).map
              (fun d => (scripts.requiresSh d).getD [])).flatten
        ++ build
        ++ (scripts.after p).getD []) := by
  unfold assembleScript
  rw [h]
  dsimp only
  cases hb : scripts.before p <;> cases ha : scripts.after p <;>
    simp [assemble_fold_eq, List.append_assoc]

/-- C8 (witness). -/
theorem assembleScript_is_concat_witness :
    assembleScript dmScript scriptsFixture "p" [4] 10 =
      some (shebang
        ++ (scriptsFixture.before "p").getD []
        ++ (((["d", "p"] : List String).filter (fun d => d ≠ "p")).map
              (fun d => (scriptsFixture.requiresSh d).getD [])).flatten
        ++ [4]
        ++ (scriptsFixture.after "p").getD []) :=
  assembleScript_is_concat dmScript scriptsFixture "p" [4] 10 ["d", "p"]
    (by decide)

/-- C9 (counterexample): in the local (no remote host) case, the `~/`
prefix of the destination IS stripped — the copy command uses the
modified destination, not the unmodified one the claim requires. -/
theorem put_file_strips_tilde_locally_cex :
    put_file_to_remote none "src" "~/dest" = "cp -r src dest"
    ∧ "cp -r src dest" ≠ "cp -r src ~/dest" := by
  refine ⟨by decide, by decide⟩

/-- C9 (amended): `wrap` behaves as claimed (`ssh <host> "<cmd>"` when a
remote host is configured, `cmd` unchanged otherwise); `send` strips a
`~/` prefix from the destination UNCONDITIONALLY, before the remote/local
branch, so both the remote `scp` and the local `cp -r` use the stripped
destination. -/
theorem remote_shim_behaviour (host : String) (cmd src dest : String)
    (hh : host.isEmpty = false) (hd : strStartsWith dest "~/" = true) :
    get_remote_command (some host) cmd = "ssh " ++ host ++ " \"" ++ cmd ++ "\""
    ∧ get_remote_command none cmd = cmd
    ∧ put_file_to_remote (some host) src dest
        = "scp -r " ++ src ++ " " ++ host ++ ":" ++ strDrop dest 2
    ∧ put_file_to_remote none src dest = "cp -r " ++ src ++ " " ++ strDrop dest 2 := by
  unfold get_remote_command put_file_to_remote
  simp [hh, hd]

/-- C9 (witness). -/
theorem remote_shim_behaviour_witness :
    get_remote_command (some "root@box") "ls x" = "ssh " ++ "root@box" ++ " \"" ++ "ls x" ++ "\""
    ∧ get_remote_command none "ls x" = "ls x"
    ∧ put_file_to_remote (some "root@box") "s" "~/w"
        = "scp -r " ++ "s" ++ " " ++ "root@box" ++ ":" ++ strDrop "~/w" 2
    ∧ put_file_to_remote none "s" "~/w" = "cp -r " ++ "s" ++ " " ++ strDrop "~/w" 2 :=
  remote_shim_behaviour "root@box" "ls x" "s" "~/w" (by decide) (by decide)

/-- C10: `required_source_files` pairs the i-th url with the i-th checksum
of the selected url/checksum pair (the x86_64 lists, or the generic lists
when the x86_64 url list is empty), the result has length
`min #urls #checksums` — surplus urls are silently dropped when the
checksum list is shorter — and an empty x86_64 url list selects the
generic `DOWNLOAD`/`MD5SUM` pair. -/
theorem required_source_files_spec (info : InfoDict) :
    (required_source_files info).length
        = min (selected_urls info).length (selected_md5s info).length
    ∧ (∀ i, (required_source_files info).get? i =
        match (selected_urls info).get? i, (selected_md5s info).get? i with
        | some u, some c => some (u, urlFileName u, c)
        | _, _ => none)
    ∧ (info.DOWNLOAD_x86_64 = [] →
        required_source_files info
          = zip3 info.DOWNLOAD (info.DOWNLOAD.map urlFileName) info.MD5SUM) := by
  unfold required_source_files selected_urls selected_md5s
  by_cases he : info.DOWNLOAD_x86_64.isEmpty
  · simp only [he, if_true]
    exact ⟨zip3_map_length urlFileName _ _,
           fun i => zip3_map_get urlFileName _ _ i,
           fun _ => trivial⟩
  · simp only [he, if_false]
    refine ⟨zip3_map_length urlFileName _ _,
            fun i => zip3_map_get urlFileName _ _ i,
            fun hnil => ?_⟩
    rw [List.isEmpty_iff] at he
    exact absurd hnil he

/-- C10 (witness): a surplus generic url with a single checksum. -/
theorem required_source_files_spec_witness :
    required_source_files infoSurplusUrl
      = zip3 infoSurplusUrl.DOWNLOAD
          (infoSurplusUrl.DOWNLOAD.map urlFileName) infoSurplusUrl.MD5SUM :=
  (required_source_files_spec infoSurplusUrl).2.2 rfl

end Afterpkg
